import Mathlib

/-!
Verification of the retrieval-augmented question-answering pipeline
(`rag_system`): document chunking, embedding, vector-store preparation,
LLM provider selection, structured-response parsing and the orchestration
of indexing and answering.  Each Python function is embedded shallowly:
text is `List Char`, machine floats are `ℝ`, Python exceptions are the
`Except` monad, and external collaborators (HTTP, Pinecone, the LLM
backends) are oracles passed as function arguments.
-/

/-! ### Chunker (`DocumentProcessor.chunk_text`)

The Python loop:

    while start < len(text):
        end = start + chunk_size
        if start > 0:
            start = start - overlap
        chunk = text[start:end]
        chunks.append(chunk)
        start = end

`chunkLoop` embeds the loop body; the `fuel` argument is only a bound on
the number of iterations (the loop advances `start` by `chunk_size` each
time, so `text.length` iterations suffice whenever `0 < chunk_size`;
with `chunk_size = 0` and a nonempty text the Python loop diverges, and
every claim below assumes `0 < chunk_size`).  The slice `text[s:e]`
(with `0 ≤ s ≤ e`) is `(text.drop s).take (e - s)`; inside the loop
`start - overlap` stays nonnegative because `start ≥ chunk_size >
overlap` whenever the branch is taken, so `Nat` subtraction agrees with
Python. -/
def chunkLoop (text : List Char) (chunk_size overlap : Nat) : Nat → Nat → List (List Char)
  | _, 0 => []
  | start, fuel+1 =>
    if start < text.length then
      (text.drop (if 0 < start then start - overlap else start)).take
          (start + chunk_size - (if 0 < start then start - overlap else start))
        :: chunkLoop text chunk_size overlap (start + chunk_size) fuel
    else []

/-- Embedding of `DocumentProcessor.chunk_text`. -/
def chunk_text (text : List Char) (chunk_size overlap : Nat) : List (List Char) :=
  if text.length ≤ chunk_size then [text]
  else chunkLoop text chunk_size overlap 0 text.length

/-! ### Embedder (`VectorStore.create_embeddings`)

    words = text.lower().split()
    embedding = np.zeros(384)
    for word in words:
        hash_val = hash(word) % 384
        embedding[hash_val] += 1
    norm = np.linalg.norm(embedding)
    if norm > 0:
        embedding = embedding / norm

Python strings are `List Char`; floats are modelled as `ℝ`.  `hash` is
Python's built-in string hash (an arbitrary per-process function with no
further structure), so it is a parameter `h`. -/

/-- One step of `str.split()`: accumulate the current token (reversed in
`acc`), emitting it at each whitespace run boundary; no empty tokens.  -/
def splitWsAux : List Char → List Char → List (List Char)
  | [], acc => if acc.isEmpty then [] else [acc.reverse]
  | c :: rest, acc =>
    if c.isWhitespace then
      if acc.isEmpty then splitWsAux rest [] else acc.reverse :: splitWsAux rest []
    else splitWsAux rest (c :: acc)

/-- Python `text.lower().split()`: lowercase, then split on whitespace runs
(ASCII whitespace; the Unicode refinements of Python `.lower`/`.split`
are irrelevant to the texts considered here). -/
def py_lower_split (text : List Char) : List (List Char) :=
  splitWsAux (text.map Char.toLower) []

/-- The bag-of-hashed-words counts: `np.zeros(384)` followed by
`embedding[hash(word) % 384] += 1` for each token. -/
def raw_embedding (h : List Char → Nat) (text : List Char) : List Nat :=
  (py_lower_split text).foldl
    (fun acc w => acc.set (h w % 384) (acc.getD (h w % 384) 0 + 1))
    (List.replicate 384 0)

/-- Integer square of the Euclidean norm of the raw counts; `norm > 0`
in the Python code is equivalent to `normSqNat ≠ 0`. -/
def normSqNat (v : List Nat) : Nat := (v.map (fun x => x * x)).sum

/-- Embedding of the body of `create_embeddings` for one text:
`np.linalg.norm` is `Real.sqrt` of the sum of squares, and the division
normalizes each coordinate when the norm is positive. -/
noncomputable def create_embedding_one (h : List Char → Nat) (text : List Char) : List ℝ :=
  if 0 < Real.sqrt (((raw_embedding h text).map (fun (n : Nat) => ((n : ℝ) ^ 2))).sum)
  then ((raw_embedding h text).map (fun (n : Nat) => (n : ℝ))).map
    (fun x => x / Real.sqrt (((raw_embedding h text).map (fun (n : Nat) => ((n : ℝ) ^ 2))).sum))
  else (raw_embedding h text).map (fun (n : Nat) => (n : ℝ))

/-- Embedding of `VectorStore.create_embeddings`: the loop over `texts`
appending one vector each is a map. -/
noncomputable def create_embeddings (h : List Char → Nat) (texts : List (List Char)) :
    List (List ℝ) :=
  texts.map (fun t => create_embedding_one h t)

/-- A concrete stand-in for Python's string hash, used only to witness
theorems at concrete inputs. -/
def hash0 (w : List Char) : Nat := w.length

/-! ### Vector store write path (`VectorStore.add_documents`)

    texts = [doc["text"] for doc in documents]
    metadatas = [doc.get("metadata", {}) for doc in documents]
    embeddings = self.create_embeddings(texts)
    ids = [str(uuid.uuid4()) for _ in documents]
    vectors = []
    for i, (embedding, metadata) in enumerate(zip(embeddings, metadatas)):
        vectors.append({"id": ids[i], "values": embedding,
                        "metadata": {**metadata, "text": texts[i][:1000]}})
    self.index.upsert(vectors=vectors)
    return ids
-/

/-- The metadata dictionary attached to each chunk by
`RAGSystem.process_and_index_document`. -/
structure ChunkMeta where
  document_url : List Char
  file_type : List Char
  chunk_index : Nat
  total_chunks : Nat
  content_length : Nat
  deriving Inhabited, DecidableEq

/-- One entry of the `documents` list handed to `add_documents`. -/
structure RagDoc where
  text : List Char
  metadata : ChunkMeta
  deriving Inhabited

/-- One vector shipped to the Pinecone upsert: the merged metadata dict
`{**metadata, "text": texts[i][:1000]}` keeps the original metadata
fields next to the overriding "text" key, recorded in
`metadata_text`. -/
structure PineVector where
  id : List Char
  values : List ℝ
  metadata : ChunkMeta
  metadata_text : List Char

/-- Embedding of `VectorStore.add_documents`.  `uuid.uuid4()` is an
external randomness source, modelled as the generator `uuidGen` giving
the id of each position; `enumerate(zip(embeddings, metadatas))` walks
the indices `0..len(documents)-1` with all lists of that same length,
which is the `List.range` map below.  The Pinecone `upsert` is the
outbound call, so the function returns the prepared vectors together
with the returned ids. -/
noncomputable def add_documents (h : List Char → Nat) (uuidGen : Nat → List Char)
    (documents : List RagDoc) : List PineVector × List (List Char) :=
  let texts := documents.map (fun d => d.text)
  let metadatas := documents.map (fun d => d.metadata)
  let embeddings := create_embeddings h texts
  let ids := (List.range documents.length).map uuidGen
  let vectors := (List.range documents.length).map (fun i =>
    { id := ids.getD i []
      values := embeddings.getD i []
      metadata := metadatas.getD i default
      metadata_text := (texts.getD i []).take 1000 : PineVector })
  (vectors, ids)

/-- A concrete 1500-character document entry, used only in witnesses: it
exercises the metadata truncation to 1000 characters. -/
def bigDoc : RagDoc :=
  { text := List.replicate 1500 'a', metadata := default }

/-! ### Python exceptions and shared values -/

/-- A raised Python exception: `ValueError` is distinguished because the
spec names it for the no-provider case; every other raised exception (or
`Exception(...)`) is `exn`.  `str(e)` on either returns the message. -/
inductive PyErr where
  | valueError (msg : List Char)
  | exn (msg : List Char)
  deriving DecidableEq

/-- Python `str(e)` of a raised exception. -/
def pyStr : PyErr → List Char
  | .valueError m => m
  | .exn m => m

/-- One formatted result of `VectorStore.search`; downstream code only
reads the `text` field (`doc["text"]`). -/
structure SearchResult where
  id : List Char
  score : ℚ
  text : List Char
  deriving DecidableEq

/-- Python `str.strip()` (ASCII whitespace at both ends). -/
def py_strip (s : List Char) : List Char :=
  ((s.dropWhile Char.isWhitespace).reverse.dropWhile Char.isWhitespace).reverse

/-! ### JSON (`json.loads`) and the brace regex

`generate_structured_response` post-processes the raw backend text with

    json_match = re.search(r'\x7b.*\x7d', response_text, re.DOTALL)
    if json_match:
        try:
            return json.loads(json_match.group())
        except json.JSONDecodeError:
            pass
    return {"decision": "Unable to parse structured response",
            "amount": "N/A", "justification": response_text}

The regex is greedy with DOTALL, so a match runs from the first opening
brace to the last closing brace of the whole text.  `json.loads` is
embedded as a recursive-descent parser for the JSON fragment the code
can meet (objects, arrays, strings with the standard escapes, `true`,
`false`, `null`, and decimal numbers with an optional fraction; number
exponents and surrogate pairs are left out), requiring the entire input
to be consumed, as `json.loads` does. -/

inductive Json where
  | null
  | jbool (b : Bool)
  | jnum (q : ℚ)
  | jstr (s : List Char)
  | jarr (xs : List Json)
  | jobj (kvs : List (List Char × Json))

/-- JSON insignificant whitespace. -/
def jsonWs (c : Char) : Bool := c == ' ' || c == '\t' || c == '\n' || c == '\r'

def skipWs (s : List Char) : List Char := s.dropWhile jsonWs

def hexVal (c : Char) : Option Nat :=
  if '0' ≤ c ∧ c ≤ '9' then some (c.toNat - '0'.toNat)
  else if 'a' ≤ c ∧ c ≤ 'f' then some (c.toNat - 'a'.toNat + 10)
  else if 'A' ≤ c ∧ c ≤ 'F' then some (c.toNat - 'A'.toNat + 10)
  else none

/-- Body of a JSON string after the opening quote: returns the decoded
characters and the remainder after the closing quote. -/
def parseStringBody : Nat → List Char → List Char → Option (List Char × List Char)
  | 0, _, _ => none
  | _+1, _, [] => none
  | fuel+1, acc, c :: rest =>
    if c == '"' then some (acc.reverse, rest)
    else if c == '\\' then
      match rest with
      | [] => none
      | e :: rest2 =>
        if e == '"' then parseStringBody fuel ('"' :: acc) rest2
        else if e == '\\' then parseStringBody fuel ('\\' :: acc) rest2
        else if e == '/' then parseStringBody fuel ('/' :: acc) rest2
        else if e == 'n' then parseStringBody fuel ('\n' :: acc) rest2
        else if e == 't' then parseStringBody fuel ('\t' :: acc) rest2
        else if e == 'r' then parseStringBody fuel ('\r' :: acc) rest2
        else if e == 'b' then parseStringBody fuel (Char.ofNat 8 :: acc) rest2
        else if e == 'f' then parseStringBody fuel (Char.ofNat 12 :: acc) rest2
        else if e == 'u' then
          match rest2 with
          | h1 :: h2 :: h3 :: h4 :: rest3 =>
            match hexVal h1, hexVal h2, hexVal h3, hexVal h4 with
            | some a, some b, some c2, some d =>
              parseStringBody fuel (Char.ofNat (((a * 16 + b) * 16 + c2) * 16 + d) :: acc) rest3
            | _, _, _, _ => none
          | _ => none
        else none
    else parseStringBody fuel (c :: acc) rest

def digitsToNat (ds : List Char) : Nat :=
  ds.foldl (fun n c => n * 10 + (c.toNat - '0'.toNat)) 0

/-- A JSON number: optional minus, integer digits, optional fraction. -/
def parseNumber (s : List Char) : Option (ℚ × List Char) :=
  let neg : Bool := match s with
    | c :: _ => c == '-'
    | [] => false
  let s1 := if neg then s.tail else s
  let ds := s1.takeWhile Char.isDigit
  let rest := s1.dropWhile Char.isDigit
  if ds.isEmpty then none
  else
    let ipart : ℚ := (digitsToNat ds : ℚ)
    match rest with
    | '.' :: r2 =>
      let fs := r2.takeWhile Char.isDigit
      let r3 := r2.dropWhile Char.isDigit
      if fs.isEmpty then none
      else
        let q := ipart + (digitsToNat fs : ℚ) / ((10 : ℚ) ^ fs.length)
        some (if neg then -q else q, r3)
    | _ => some (if neg then -ipart else ipart, rest)

/-- Intermediate results of the JSON parser: a value, the members of an
object, or the items of an array. -/
inductive PRet where
  | val (j : Json)
  | mems (kvs : List (List Char × Json))
  | items (xs : List Json)

/-- Parsing mode: a value, the member list after an object's first
character, or the item list after an array's first character. -/
inductive PMode where
  | pvalue
  | pmembers
  | pitems

/-- The recursive core of `json.loads`: one fuel-indexed function whose
mode selects between value / object members / array items, so the
recursion is structural in the fuel. -/
def parseCore : Nat → PMode → List Char → Option (PRet × List Char)
  | 0, _, _ => none
  | fuel+1, PMode.pvalue, s =>
    match skipWs s with
    | [] => none
    | c :: rest =>
      if c == '"' then
        match parseStringBody (rest.length + 1) [] rest with
        | some (str, r) => some (PRet.val (Json.jstr str), r)
        | none => none
      else if c == '\x7b' then
        match skipWs rest with
        | '\x7d' :: r2 => some (PRet.val (Json.jobj []), r2)
        | _ =>
          match parseCore fuel PMode.pmembers rest with
          | some (PRet.mems kvs, r2) => some (PRet.val (Json.jobj kvs), r2)
          | _ => none
      else if c == '[' then
        match skipWs rest with
        | ']' :: r2 => some (PRet.val (Json.jarr []), r2)
        | _ =>
          match parseCore fuel PMode.pitems rest with
          | some (PRet.items xs, r2) => some (PRet.val (Json.jarr xs), r2)
          | _ => none
      else if c == 't' then
        match rest with
        | 'r' :: 'u' :: 'e' :: r2 => some (PRet.val (Json.jbool true), r2)
        | _ => none
      else if c == 'f' then
        match rest with
        | 'a' :: 'l' :: 's' :: 'e' :: r2 => some (PRet.val (Json.jbool false), r2)
        | _ => none
      else if c == 'n' then
        match rest with
        | 'u' :: 'l' :: 'l' :: r2 => some (PRet.val Json.null, r2)
        | _ => none
      else if c == '-' || c.isDigit then
        match parseNumber (c :: rest) with
        | some (q, r2) => some (PRet.val (Json.jnum q), r2)
        | none => none
      else none
  | fuel+1, PMode.pmembers, s =>
    match skipWs s with
    | '"' :: rest =>
      match parseStringBody (rest.length + 1) [] rest with
      | some (key, r1) =>
        match skipWs r1 with
        | ':' :: r2 =>
          match parseCore fuel PMode.pvalue r2 with
          | some (PRet.val v, r3) =>
            match skipWs r3 with
            | ',' :: r4 =>
              match parseCore fuel PMode.pmembers r4 with
              | some (PRet.mems kvs, r5) => some (PRet.mems ((key, v) :: kvs), r5)
              | _ => none
            | '\x7d' :: r4 => some (PRet.mems [(key, v)], r4)
            | _ => none
          | _ => none
        | _ => none
      | none => none
    | _ => none
  | fuel+1, PMode.pitems, s =>
    match parseCore fuel PMode.pvalue s with
    | some (PRet.val v, r1) =>
      match skipWs r1 with
      | ',' :: r2 =>
        match parseCore fuel PMode.pitems r2 with
        | some (PRet.items xs, r3) => some (PRet.items (v :: xs), r3)
        | _ => none
      | ']' :: r2 => some (PRet.items [v], r2)
      | _ => none
    | _ => none

/-- Embedding of `json.loads`: parse one value and require the rest of
the input to be whitespace only. -/
def json_loads (s : List Char) : Option Json :=
  match parseCore (2 * s.length + 2) PMode.pvalue s with
  | some (PRet.val j, rest) => if (skipWs rest).isEmpty then some j else none
  | _ => none

/-- First index where `p` holds. -/
def findIdxFrom (p : Char → Bool) : List Char → Option Nat
  | [] => none
  | c :: rest => if p c then some 0 else (findIdxFrom p rest).map (fun i => i + 1)

/-- Last index where `p` holds. -/
def findLastIdx (p : Char → Bool) (s : List Char) : Option Nat :=
  (findIdxFrom p s.reverse).map (fun k => s.length - 1 - k)

/-- Embedding of `re.search` for the greedy pattern brace-dot-star-brace
with DOTALL: the leftmost-longest match runs from the first opening
brace (provided some closing brace lies beyond it) to the last closing
brace of the text. -/
def re_search_braces (s : List Char) : Option (List Char) :=
  match findIdxFrom (fun c => c == '\x7b') s, findLastIdx (fun c => c == '\x7d') s with
  | some i, some j => if i < j then some ((s.drop i).take (j - i + 1)) else none
  | _, _ => none

/-- Modelled from the spec: "scan the raw text for the first
brace-delimited JSON object" — the earliest substring that starts at the
first opening brace and parses as JSON, shortest extent first.  This is
the claim's reading, stated separately so it can be compared with the
code's greedy `re_search_braces`. -/
def first_json_object (s : List Char) : Option (List Char) :=
  ((List.range s.length).filterMap (fun i =>
    if s.get? i = some '\x7b' then
      (((List.range (s.length - i)).filterMap (fun d =>
        let cand := (s.drop i).take (d + 2)
        if (json_loads cand).isSome then some cand else none)).head?)
    else none)).head?

/-! ### LLM client (`LLMClient`)

Provider selection is the same in all three generate functions:

    if self.client and self.openai_api_key and self.openai_api_key != "your-openai-api-key":
        ... OpenAI chat completion ...
    elif self.perplexity_api_key and self.perplexity_api_key != "your-perplexity-api-key":
        ... requests.post to Perplexity; raise on a non-200 status ...
    else:
        raise ValueError("No LLM API keys provided")

The HTTP backends are oracles: `callOpenAI` takes the outgoing messages
and returns the reply content (or a raised error); `perplexityPost`
takes the messages and returns the status code together with the
message content (for status 200) or the raw response text (otherwise,
interpolated into the raised error message). -/

def openai_placeholder : List Char := ("your-openai-api-key").toList

def perplexity_placeholder : List Char := ("your-perplexity-api-key").toList

/-- Python truthiness of an optional string: `None` and `""` are falsy. -/
def truthy : Option (List Char) → Bool
  | none => false
  | some s => !s.isEmpty

/-- The state set up by `LLMClient.__init__`: the two credential slots
and whether the OpenAI client object was constructed. -/
structure LLMClient where
  openai_api_key : Option (List Char)
  perplexity_api_key : Option (List Char)
  client : Bool

/-- Embedding of `LLMClient.__init__`: the OpenAI client is built exactly when the
key is truthy and differs from the placeholder sentinel. -/
def LLMClient.init (openai_api_key perplexity_api_key : Option (List Char)) : LLMClient :=
  { openai_api_key := openai_api_key
    perplexity_api_key := perplexity_api_key
    client := match openai_api_key with
      | some k => !k.isEmpty && k != openai_placeholder
      | none => false }

/-- The primary-branch guard
`self.client and self.openai_api_key and self.openai_api_key != "your-openai-api-key"`. -/
def openai_branch (c : LLMClient) : Bool :=
  c.client && truthy c.openai_api_key && (c.openai_api_key.getD [] != openai_placeholder)

/-- The secondary-branch guard
`self.perplexity_api_key and self.perplexity_api_key != "your-perplexity-api-key"`. -/
def perplexity_branch (c : LLMClient) : Bool :=
  truthy c.perplexity_api_key && (c.perplexity_api_key.getD [] != perplexity_placeholder)

/-- Embedding of `"\n\n".join(doc["text"] for doc in context)`. -/
def context_join (context : List SearchResult) : List Char :=
  List.intercalate (("\n\n").toList) (context.map (fun d => d.text))

def qa_system_prompt : List Char :=
  ("You are a helpful assistant that answers questions based on the provided context. \n            Please answer the question using only the information provided in the context. \n            If the context doesn\x27t contain enough information to answer the question, say so.\n            Be concise and accurate in your responses.").toList

def qa_user_prompt (query : List Char) (context : List SearchResult) : List Char :=
  ("Context: ").toList ++ context_join context ++ ("\n\nQuestion: ").toList ++ query ++
    ("\n\nPlease provide a clear and accurate answer based on the context above.").toList

def structured_system_prompt : List Char :=
  ("You are an insurance policy analyzer. Based on the provided policy document context, \n            analyze the query and provide a structured response with:\n            1. Decision: Whether the claim/request is approved or rejected\n            2. Amount: The payout amount if applicable (or \"N/A\" if not applicable)\n            3. Justification: Detailed explanation with specific policy clauses referenced\n            \n            Format your response as a JSON object with these fields.").toList

def structured_user_prompt (query : List Char) (context : List SearchResult) : List Char :=
  ("Policy Context: ").toList ++ context_join context ++ ("\n\nQuery: ").toList ++ query ++
    ("\n\nPlease analyze this query against the policy and provide a structured response.").toList

def simple_prompt (query : List Char) (context : List SearchResult) : List Char :=
  ("Based on the following document context, answer the question:\n\nContext: ").toList ++
    context_join context ++ ("\n\nQuestion: ").toList ++ query ++ ("\n\nAnswer:").toList

/-- The shared Perplexity status handling: 200 yields the stripped
message content, any other status raises
`Exception(f"Perplexity API error: {status_code} - {text}")`. -/
def perplexity_result (resp : Nat × List Char) : Except PyErr (List Char) :=
  if resp.1 == 200 then Except.ok (py_strip resp.2)
  else Except.error (.exn (("Perplexity API error: ").toList ++ (toString resp.1).toList ++
    (" - ").toList ++ resp.2))

/-- Embedding of `LLMClient.generate_response_with_context`. -/
def generate_response_with_context (c : LLMClient)
    (callOpenAI : List (List Char × List Char) → Except PyErr (List Char))
    (perplexityPost : List (List Char × List Char) → Nat × List Char)
    (query : List Char) (context : List SearchResult) : Except PyErr (List Char) :=
  let messages := [(("system").toList, qa_system_prompt),
                   (("user").toList, qa_user_prompt query context)]
  if openai_branch c then
    match callOpenAI messages with
    | .ok content => .ok (py_strip content)
    | .error e => .error e
  else if perplexity_branch c then
    perplexity_result (perplexityPost messages)
  else
    .error (.valueError (("No LLM API keys provided").toList))

/-- Embedding of `LLMClient.generate_simple_response`. -/
def generate_simple_response (c : LLMClient)
    (callOpenAI : List (List Char × List Char) → Except PyErr (List Char))
    (perplexityPost : List (List Char × List Char) → Nat × List Char)
    (query : List Char) (context : List SearchResult) : Except PyErr (List Char) :=
  let messages := [(("user").toList, simple_prompt query context)]
  if openai_branch c then
    match callOpenAI messages with
    | .ok content => .ok (py_strip content)
    | .error e => .error e
  else if perplexity_branch c then
    perplexity_result (perplexityPost messages)
  else
    .error (.valueError (("No LLM API keys provided").toList))

/-- The literal fallback dict returned when no JSON object can be
extracted from the backend text. -/
def structured_fallback (response_text : List Char) : Json :=
  Json.jobj [(("decision").toList, Json.jstr (("Unable to parse structured response").toList)),
             (("amount").toList, Json.jstr (("N/A").toList)),
             (("justification").toList, Json.jstr response_text)]

/-- The post-processing tail of `generate_structured_response`: greedy
brace search, then `json.loads` on the single matched span, falling back
to the sentinel record. -/
def structured_postprocess (response_text : List Char) : Json :=
  match re_search_braces response_text with
  | some cand =>
    match json_loads cand with
    | some j => j
    | none => structured_fallback response_text
  | none => structured_fallback response_text

/-- Embedding of `LLMClient.generate_structured_response`. -/
def generate_structured_response (c : LLMClient)
    (callOpenAI : List (List Char × List Char) → Except PyErr (List Char))
    (perplexityPost : List (List Char × List Char) → Nat × List Char)
    (query : List Char) (context : List SearchResult) : Except PyErr Json :=
  let messages := [(("system").toList, structured_system_prompt),
                   (("user").toList, structured_user_prompt query context)]
  let response_text : Except PyErr (List Char) :=
    if openai_branch c then
      match callOpenAI messages with
      | .ok content => .ok (py_strip content)
      | .error e => .error e
    else if perplexity_branch c then
      perplexity_result (perplexityPost messages)
    else
      .error (.valueError (("No LLM API keys provided").toList))
  match response_text with
  | .ok rt => .ok (structured_postprocess rt)
  | .error e => .error e

/-! ### Document loader (`DocumentProcessor.process_document`)

    content = self.download_document(url)
    file_extension = Path(url.split('?')[0]).suffix.lower()
    if file_extension not in self.supported_types:
        raise ValueError(f"Unsupported file type: {file_extension}")
    if file_extension == ".pdf": text = self.extract_text_from_pdf(content)
    elif file_extension == ".docx": text = self.extract_text_from_docx(content)
    elif file_extension == ".txt": text = self.extract_text_from_txt(content)
    else: raise ValueError(f"Unsupported file type: {file_extension}")
    return {"text": text, "file_type": file_extension, "url": url,
            "content_length": len(content)}

The download and the three per-format extractors are oracles (network
and third-party parsing libraries); raw bytes are `List Nat`. -/

/-- Embedding of `url.split('?')[0]`. -/
def strip_query (url : List Char) : List Char := url.takeWhile (fun c => c != '?')

/-- Embedding of `Path(p).name`: the final path component.  (The pathlib
normalization of trailing slashes is not modelled; no claim concerns
such locators.) -/
def path_name (p : List Char) : List Char :=
  (p.reverse.takeWhile (fun c => c != '/')).reverse

/-- Embedding of `Path(p).suffix`: from the last dot of the name, provided that dot
is neither the leading nor the trailing character. -/
def path_suffix (p : List Char) : List Char :=
  let name := path_name p
  match findLastIdx (fun c => c == '.') name with
  | some i => if 0 < i ∧ i < name.length - 1 then name.drop i else []
  | none => []

/-- Embedding of `Path(url.split('?')[0]).suffix.lower()`. -/
def get_extension (url : List Char) : List Char :=
  (path_suffix (strip_query url)).map Char.toLower

/-- The dict returned by `process_document`. -/
structure DocInfo where
  text : List Char
  file_type : List Char
  url : List Char
  content_length : Nat
  deriving DecidableEq

/-- The default `supported_types` (also `settings.SUPPORTED_FILE_TYPES`). -/
def default_supported_types : List (List Char) :=
  [(".pdf").toList, (".docx").toList, (".doc").toList, (".txt").toList]

/-- Embedding of `DocumentProcessor.process_document`. -/
def process_document (download : Except PyErr (List Nat))
    (extract_pdf extract_docx extract_txt : List Nat → Except PyErr (List Char))
    (supported_types : List (List Char)) (url : List Char) : Except PyErr DocInfo :=
  match download with
  | .error e => .error e
  | .ok content =>
    let ext := get_extension url
    if ext ∉ supported_types then
      .error (.valueError (("Unsupported file type: ").toList ++ ext))
    else if ext = (".pdf").toList then
      match extract_pdf content with
      | .ok t => .ok ⟨t, ext, url, content.length⟩
      | .error e => .error e
    else if ext = (".docx").toList then
      match extract_docx content with
      | .ok t => .ok ⟨t, ext, url, content.length⟩
      | .error e => .error e
    else if ext = (".txt").toList then
      match extract_txt content with
      | .ok t => .ok ⟨t, ext, url, content.length⟩
      | .error e => .error e
    else
      .error (.valueError (("Unsupported file type: ").toList ++ ext))

/-! ### Orchestrator (`RAGSystem`)

`process_and_index_document` and `answer_question` /
`answer_multiple_questions` wrap every step in try/except and return
result dicts.  The document pipeline (`process_document`), the vector
store (`search` / `add_documents`, absent when Pinecone could not be
initialized) and the generator are oracles; each returns `Except` to
model a raised exception. -/

/-- The dict returned by `process_and_index_document`. -/
structure IndexResult where
  success : Bool
  document_url : Option (List Char) := none
  chunks_processed : Option Nat := none
  document_ids : Option (List (List Char)) := none
  error : Option (List Char) := none

/-- The per-chunk packaging loop of `process_and_index_document`. -/
def prepare_documents (url : List Char) (info : DocInfo) (cs ov : Nat) : List RagDoc :=
  (chunk_text info.text cs ov).enum.map (fun p =>
    { text := p.2
      metadata := { document_url := url
                    file_type := info.file_type
                    chunk_index := p.1
                    total_chunks := (chunk_text info.text cs ov).length
                    content_length := info.content_length } })

/-- Embedding of `RAGSystem.process_and_index_document`: `processDoc` is
the outcome of `self.document_processor.process_document(document_url)`,
`hasStore` whether `self.vector_store` is set, and `addDocs` the vector
store's `add_documents`. -/
def process_and_index_document (processDoc : Except PyErr DocInfo) (hasStore : Bool)
    (addDocs : List RagDoc → Except PyErr (List (List Char)))
    (cs ov : Nat) (url : List Char) : IndexResult :=
  match processDoc with
  | .error e => { success := false, error := some (pyStr e) }
  | .ok info =>
    let documents := prepare_documents url info cs ov
    if hasStore then
      match addDocs documents with
      | .ok ids =>
        { success := true
          document_url := some url
          chunks_processed := some documents.length
          document_ids := some ids }
      | .error e => { success := false, error := some (pyStr e) }
    else
      { success := false, error := some (("Vector store not available").toList) }

/-- The dict returned by `answer_question`. -/
structure QAResult where
  success : Bool
  answer : Option (List Char) := none
  context_used : Option Nat := none
  search_results : Option (List SearchResult) := none
  error : Option (List Char) := none

/-- Embedding of `RAGSystem.answer_question`: `search` is the vector
store's `search(query, top_k)` and `genSimple` the LLM client's
`generate_simple_response(question, search_results)`.  Every failure
is caught and becomes a `success := false` dict. -/
def answer_question (hasStore : Bool)
    (search : List Char → Nat → Except PyErr (List SearchResult))
    (genSimple : List Char → List SearchResult → Except PyErr (List Char))
    (top_k : Nat) (question : List Char) : QAResult :=
  if !hasStore then
    { success := false, error := some (("Vector store not available").toList) }
  else
    match search question top_k with
    | .error e => { success := false, error := some (pyStr e) }
    | .ok results =>
      if results.isEmpty then
        { success := false, error := some (("No relevant context found").toList) }
      else
        match genSimple question results with
        | .ok answer =>
          { success := true
            answer := some answer
            context_used := some results.length
            search_results := some results }
        | .error e =>
          { success := false, error := some (("LLM error: ").toList ++ pyStr e) }

/-- The dict returned by `answer_multiple_questions`. -/
structure BatchResult where
  success : Bool
  answers : List (List Char)
  error : Option (List Char) := none

/-- Embedding of `RAGSystem.answer_multiple_questions`: the loop that
appends one answer string per question is a map.  `answer_question`
catches all of its own failures, so the surrounding try can only take
the success path: the catch-all branch (`success := false`,
`answers := []`) is unreachable. -/
def answer_multiple_questions (hasStore : Bool)
    (search : List Char → Nat → Except PyErr (List SearchResult))
    (genSimple : List Char → List SearchResult → Except PyErr (List Char))
    (top_k : Nat) (questions : List (List Char)) : BatchResult :=
  { success := true
    answers := questions.map (fun q =>
      let r := answer_question hasStore search genSimple top_k q
      if r.success then r.answer.getD []
      else ("Error: ").toList ++ r.error.getD (("Unknown error").toList)) }

/-- A search oracle used only in witnesses: always one hit. -/
def searchW : List Char → Nat → Except PyErr (List SearchResult) :=
  fun _ _ => .ok [{ id := ("1").toList, score := 0, text := ("ctx").toList }]

/-- A generator oracle used only in witnesses: answers the first
question, raises on the second. -/
def genW : List Char → List SearchResult → Except PyErr (List Char) :=
  fun q _ =>
    if q = ("q1").toList then .ok (("A1").toList)
    else .error (.exn (("boom").toList))

theorem chunkLoop_of_le {text : List Char} {chunk_size overlap start : Nat} (fuel : Nat)
    (h : text.length ≤ start) :
    chunkLoop text chunk_size overlap start fuel = [] := by
  cases fuel with
  | zero => rfl
  | succ n => simp [chunkLoop, Nat.not_lt.2 h]

/-- Index `k` of the loop output exists exactly when the loop is still
running at uncorrected start `start + k * chunk_size`. -/
theorem chunkLoop_lt_length {text : List Char} {cs ov : Nat} :
    ∀ fuel start k, text.length ≤ start + fuel * cs →
      (k < (chunkLoop text cs ov start fuel).length ↔ start + k * cs < text.length) := by
  intro fuel
  induction fuel with
  | zero =>
    intro start k hf
    simp only [Nat.zero_mul, Nat.add_zero] at hf
    simp only [chunkLoop, List.length_nil]
    constructor
    · omega
    · intro h
      have : start ≤ start + k * cs := Nat.le_add_right _ _
      omega
  | succ n ih =>
    intro start k hf
    by_cases h : start < text.length
    · simp only [chunkLoop, if_pos h, List.length_cons]
      cases k with
      | zero => simpa using h
      | succ m =>
        have e1 : start + (n + 1) * cs = start + cs + n * cs := by ring
        have := ih (start + cs) m (by omega)
        rw [Nat.succ_lt_succ_iff, this]
        have e2 : start + (m + 1) * cs = start + cs + m * cs := by ring
        omega
    · rw [chunkLoop_of_le _ (Nat.not_lt.1 h)]
      simp only [List.length_nil]
      constructor
      · omega
      · intro hx
        have : start ≤ start + k * cs := Nat.le_add_right _ _
        omega

/-- Every chunk produced by the loop from a positive start position is
the slice `text[start + k*cs - ov : start + (k+1)*cs]`. -/
theorem chunkLoop_get {text : List Char} {cs ov : Nat} :
    ∀ fuel start k (_ : 0 < start) (_ : ov ≤ start) (_ : text.length ≤ start + fuel * cs)
      (hk : k < (chunkLoop text cs ov start fuel).length),
      (chunkLoop text cs ov start fuel).get ⟨k, hk⟩ =
        (text.drop (start + k * cs - ov)).take (cs + ov) := by
  intro fuel
  induction fuel with
  | zero =>
    intro start k _ _ _ hk
    simp [chunkLoop] at hk
  | succ n ih =>
    intro start k h1 h2 hf hk
    by_cases h : start < text.length
    · have hrec : chunkLoop text cs ov start (n+1) =
          (text.drop (start - ov)).take (start + cs - (start - ov))
            :: chunkLoop text cs ov (start + cs) n := by
        simp [chunkLoop, if_pos h, if_pos h1]
      cases k with
      | zero =>
        have : (chunkLoop text cs ov start (n+1)).get ⟨0, hk⟩ =
            (text.drop (start - ov)).take (start + cs - (start - ov)) := by
          simp [hrec]
        rw [this]
        have e1 : start + 0 * cs - ov = start - ov := by omega
        have e2 : start + cs - (start - ov) = cs + ov := by omega
        rw [e1, e2]
      | succ m =>
        have hk' : m < (chunkLoop text cs ov (start + cs) n).length := by
          have := hk
          rw [hrec] at this
          simpa using this
        have efuel : start + (n + 1) * cs = start + cs + n * cs := by ring
        have := ih (start + cs) m (by omega) (by omega) (by omega) hk'
        have hget : (chunkLoop text cs ov start (n+1)).get ⟨m+1, hk⟩ =
            (chunkLoop text cs ov (start + cs) n).get ⟨m, hk'⟩ := by
          simp [hrec]
        rw [hget, this]
        have estep : start + (m + 1) * cs = start + cs + m * cs := by ring
        have e : start + cs + m * cs - ov = start + (m + 1) * cs - ov := by omega
        rw [e]
    · rw [chunkLoop_of_le _ (Nat.not_lt.1 h)] at hk
      simp at hk

/-- Dropping the first `ov` characters of every loop chunk and
concatenating recovers the tail of the text from `start` on. -/
theorem chunkLoop_flatten {text : List Char} {cs ov : Nat} :
    ∀ fuel start, 0 < start → ov ≤ start → text.length ≤ start + fuel * cs →
      ((chunkLoop text cs ov start fuel).map (fun c => c.drop ov)).flatten = text.drop start := by
  intro fuel
  induction fuel with
  | zero =>
    intro start _ _ hf
    simp only [Nat.zero_mul, Nat.add_zero] at hf
    simp [chunkLoop, List.drop_eq_nil_of_le hf]
  | succ n ih =>
    intro start h1 h2 hf
    by_cases h : start < text.length
    · have hrec : chunkLoop text cs ov start (n+1) =
          (text.drop (start - ov)).take (start + cs - (start - ov))
            :: chunkLoop text cs ov (start + cs) n := by
        simp [chunkLoop, if_pos h, if_pos h1]
      rw [hrec]
      simp only [List.map_cons, List.flatten_cons]
      have efuel : start + (n + 1) * cs = start + cs + n * cs := by ring
      rw [ih (start + cs) (by omega) (by omega) (by omega)]
      -- simplify the head: dropping ov from the slice gives text[start : start+cs]
      have hhead : (((text.drop (start - ov)).take (start + cs - (start - ov))).drop ov) =
          (text.drop start).take cs := by
        rw [List.drop_take, List.drop_drop]
        have e1 : start - ov + ov = start := by omega
        have e2 : start + cs - (start - ov) - ov = cs := by omega
        rw [e1, e2]
      rw [hhead]
      have htail : (text.drop start).drop cs = text.drop (start + cs) := by
        rw [List.drop_drop]
      rw [← htail, List.take_append_drop]
    · rw [chunkLoop_of_le _ (Nat.not_lt.1 h)]
      simp [List.drop_eq_nil_of_le (Nat.not_lt.1 h)]

theorem chunk_text_fuel {text : List Char} {cs : Nat} (hcs : 0 < cs) :
    text.length ≤ cs + (text.length - 1) * cs := by
  have h1 : text.length - 1 ≤ (text.length - 1) * cs := Nat.le_mul_of_pos_right _ hcs
  omega

/-- For a text longer than `chunk_size`, `chunk_text` is the first full
window followed by the loop restarted at `chunk_size`. -/
theorem chunk_text_eq_cons {text : List Char} {cs ov : Nat} (hcs : 0 < cs)
    (h : cs < text.length) :
    chunk_text text cs ov = text.take cs :: chunkLoop text cs ov cs (text.length - 1) := by
  have hlen : 0 < text.length := by omega
  unfold chunk_text
  rw [if_neg (by omega)]
  obtain ⟨m, hm⟩ : ∃ m, text.length = m + 1 := ⟨text.length - 1, by omega⟩
  rw [hm]
  simp [chunkLoop, hlen, hm]

/-- C1: for a text longer than `chunkSize` (with `0 < chunkSize` and
`overlap < chunkSize`), every chunk after the first starts `overlap`
characters before the end of the previous uncorrected window and ends a
full `chunkSize` after the uncorrected start (the last chunk possibly
shorter); consecutive chunks share exactly the `overlap` characters at
the seam, and concatenating the first chunk with every later chunk minus
its first `overlap` characters reconstructs the text losslessly. -/
theorem chunk_text_overlap_boundaries (text : List Char) (cs ov : Nat)
    (hcs : 0 < cs) (hov : ov < cs) (hlen : cs < text.length) :
    ((chunk_text text cs ov).head? = some (text.take cs)) ∧
    (∀ k, k + 1 < (chunk_text text cs ov).length →
      (chunk_text text cs ov).get? (k + 1) =
        some ((text.drop ((k + 1) * cs - ov)).take (cs + ov))) ∧
    (∀ k ck ck1, (chunk_text text cs ov).get? k = some ck →
      (chunk_text text cs ov).get? (k + 1) = some ck1 →
      ck1.take ov = ck.drop (ck.length - ov)) ∧
    ((chunk_text text cs ov).headI ++
      (((chunk_text text cs ov).tail).map (fun c => c.drop ov)).flatten = text) := by
  have hov' : ov ≤ cs := Nat.le_of_lt hov
  have hfuel := @chunk_text_fuel text cs hcs
  have hC := @chunk_text_eq_cons text cs ov hcs hlen
  have hget2 : ∀ k, k + 1 < (chunk_text text cs ov).length →
      (chunk_text text cs ov).get? (k + 1) =
        some ((text.drop ((k + 1) * cs - ov)).take (cs + ov)) := by
    intro k hk
    rw [hC] at hk ⊢
    rw [List.get?_cons_succ]
    have hk2 : k < (chunkLoop text cs ov cs (text.length - 1)).length := by
      simpa using hk
    rw [List.get?_eq_get hk2,
      chunkLoop_get (text.length - 1) cs k hcs hov' hfuel hk2]
    have e : cs + k * cs = (k + 1) * cs := by ring
    rw [e]
  refine ⟨by rw [hC]; rfl, hget2, ?_, ?_⟩
  · -- the seam between chunk k and chunk k+1 is exactly `ov` characters
    intro k ck ck1 h0 h1
    have hk1 : k + 1 < (chunk_text text cs ov).length := by
      rcases List.get?_eq_some.1 h1 with ⟨h, _⟩
      exact h
    have hck1 : ck1 = (text.drop ((k + 1) * cs - ov)).take (cs + ov) := by
      have := hget2 k hk1
      rw [h1] at this
      exact Option.some.inj this
    cases k with
    | zero =>
      have hck : ck = text.take cs := by
        rw [hC] at h0
        exact (Option.some.inj h0).symm
      rw [hck, hck1]
      rw [List.take_take]
      have e1 : min ov (cs + ov) = ov := by omega
      rw [e1]
      have hlt : (text.take cs).length = cs := by
        rw [List.length_take]
        omega
      rw [hlt, List.drop_take]
      have e2 : cs - (cs - ov) = ov := by omega
      rw [e2]
      have e3 : (0 + 1) * cs - ov = cs - ov := by omega
      rw [e3]
    | succ j =>
      have hkj : j + 1 < (chunk_text text cs ov).length := by omega
      have hck : ck = (text.drop ((j + 1) * cs - ov)).take (cs + ov) := by
        have := hget2 j hkj
        rw [h0] at this
        exact Option.some.inj this
      -- chunk k+2 exists, so chunk k+1 reaches its full width cs + ov
      have hloopidx : j + 1 < (chunkLoop text cs ov cs (text.length - 1)).length := by
        rw [hC] at hk1
        simpa using hk1
      have hbound : cs + (j + 1) * cs < text.length :=
        (chunkLoop_lt_length (text.length - 1) cs (j + 1) hfuel).1 hloopidx
      have hjov : ov ≤ (j + 1) * cs := by
        have : cs ≤ (j + 1) * cs := Nat.le_mul_of_pos_left _ (by omega)
        omega
      have hcklen : ck.length = cs + ov := by
        rw [hck, List.length_take, List.length_drop]
        omega
      rw [hcklen, hck1, hck]
      have e4 : cs + ov - ov = cs := by omega
      rw [e4, List.take_take]
      have e5 : min ov (cs + ov) = ov := by omega
      rw [e5, List.drop_take, List.drop_drop]
      have e6 : cs + ov - cs = ov := by omega
      have e7 : (j + 1) * cs - ov + cs = (j + 1 + 1) * cs - ov := by
        have : (j + 1 + 1) * cs = (j + 1) * cs + cs := by ring
        omega
      rw [e6, e7]
  · -- lossless reconstruction from the non-overlapping portions
    rw [hC]
    simp only [List.headI, List.tail]
    rw [chunkLoop_flatten (text.length - 1) cs hcs hov' hfuel]
    exact List.take_append_drop cs text

theorem chunk_text_overlap_boundaries_witness :
    0 < 4 ∧ 1 < 4 ∧ 4 < ("abcdefghij".toList).length ∧
    ((chunk_text ("abcdefghij".toList) 4 1).headI ++
      (((chunk_text ("abcdefghij".toList) 4 1).tail).map (fun c => c.drop 1)).flatten =
        "abcdefghij".toList) :=
  ⟨by decide, by decide, by decide,
    (chunk_text_overlap_boundaries ("abcdefghij".toList) 4 1 (by decide) (by decide)
      (by decide)).2.2.2⟩

/-- C7: when the whole text fits into one window (`len(text) <=
chunk_size`), `chunk_text` returns exactly one chunk, equal to the whole
text. -/
theorem chunk_text_single (text : List Char) (cs ov : Nat) (hcs : 0 < cs)
    (hov : ov < cs) (hlen : text.length ≤ cs) :
    chunk_text text cs ov = [text] := by
  unfold chunk_text
  rw [if_pos hlen]

theorem chunk_text_single_witness :
    0 < 4 ∧ 1 < 4 ∧ ("abc".toList).length ≤ 4 ∧
      chunk_text ("abc".toList) 4 1 = ["abc".toList] :=
  ⟨by decide, by decide, by decide,
    chunk_text_single ("abc".toList) 4 1 (by decide) (by decide) (by decide)⟩

theorem raw_embedding_length (h : List Char → Nat) (t : List Char) :
    (raw_embedding h t).length = 384 := by
  unfold raw_embedding
  have haux : ∀ (ws : List (List Char)) (acc : List Nat),
      (ws.foldl (fun acc w => acc.set (h w % 384) (acc.getD (h w % 384) 0 + 1)) acc).length =
        acc.length := by
    intro ws
    induction ws with
    | nil => intro acc; rfl
    | cons w rest ih =>
      intro acc
      rw [List.foldl_cons, ih, List.length_set]
  rw [haux, List.length_replicate]

theorem sumSq_cast (l : List Nat) :
    ((l.map (fun (n : Nat) => ((n : ℝ) ^ 2))).sum) = ((normSqNat l : ℕ) : ℝ) := by
  induction l with
  | nil => simp [normSqNat]
  | cons a t ih =>
    simp only [normSqNat, List.map_cons, List.sum_cons] at ih ⊢
    rw [ih, Nat.cast_add, Nat.cast_mul]
    ring

theorem sumSq_div (l : List ℝ) (c : ℝ) :
    ((l.map (fun x => x / c)).map (fun x => x ^ 2)).sum =
      ((l.map (fun x => x ^ 2)).sum) / c ^ 2 := by
  induction l with
  | nil => simp
  | cons a t ih =>
    simp only [List.map_cons, List.sum_cons, ih]
    rw [div_pow, add_div]

theorem create_embedding_one_length (h : List Char → Nat) (t : List Char) :
    (create_embedding_one h t).length = 384 := by
  unfold create_embedding_one
  split_ifs
  · rw [List.length_map, List.length_map, raw_embedding_length]
  · rw [List.length_map, raw_embedding_length]

theorem create_embedding_one_zero (h : List Char → Nat) (t : List Char)
    (htok : py_lower_split t = []) :
    create_embedding_one h t = List.replicate 384 (0 : ℝ) := by
  have hraw : raw_embedding h t = List.replicate 384 0 := by
    unfold raw_embedding
    rw [htok]
    rfl
  unfold create_embedding_one
  rw [hraw]
  have h0 : ((List.replicate 384 (0:ℕ)).map (fun (n : Nat) => ((n : ℝ) ^ 2))).sum = 0 := by
    rw [List.map_replicate, List.sum_replicate]
    norm_num
  rw [h0, Real.sqrt_zero, if_neg (lt_irrefl 0), List.map_replicate]
  norm_num

theorem create_embedding_one_norm (h : List Char → Nat) (t : List Char)
    (hn : normSqNat (raw_embedding h t) ≠ 0) :
    ((create_embedding_one h t).map (fun x => x ^ 2)).sum = 1 := by
  set S : ℝ := ((raw_embedding h t).map (fun (n : Nat) => ((n : ℝ) ^ 2))).sum with hS
  have hScast : S = ((normSqNat (raw_embedding h t) : ℕ) : ℝ) := sumSq_cast _
  have hSpos : 0 < S := by
    rw [hScast]
    exact_mod_cast Nat.pos_of_ne_zero hn
  have hsqrt : 0 < Real.sqrt S := Real.sqrt_pos.2 hSpos
  unfold create_embedding_one
  rw [← hS, if_pos hsqrt]
  have hsq : ((raw_embedding h t).map (fun (n : Nat) => (n : ℝ))).map (fun x => x ^ 2) =
      (raw_embedding h t).map (fun (n : Nat) => ((n : ℝ) ^ 2)) := by
    rw [List.map_map]
    rfl
  rw [sumSq_div, hsq, ← hS, Real.sq_sqrt (le_of_lt hSpos)]
  exact div_self (ne_of_gt hSpos)

/-- C8: `create_embeddings` returns one vector per input text, in input
order, each of dimension exactly 384, normalized to unit Euclidean norm
when the pre-normalization norm is nonzero and equal to the zero vector
when the text has no tokens. -/
theorem create_embeddings_contract (h : List Char → Nat) (texts : List (List Char)) :
    (create_embeddings h texts).length = texts.length ∧
    (∀ i t, texts.get? i = some t →
      (create_embeddings h texts).get? i = some (create_embedding_one h t) ∧
      (create_embedding_one h t).length = 384 ∧
      (py_lower_split t = [] → create_embedding_one h t = List.replicate 384 (0 : ℝ)) ∧
      (normSqNat (raw_embedding h t) ≠ 0 →
        ((create_embedding_one h t).map (fun x => x ^ 2)).sum = 1)) := by
  refine ⟨by simp [create_embeddings], ?_⟩
  intro i t ht
  refine ⟨?_, create_embedding_one_length h t, create_embedding_one_zero h t,
    create_embedding_one_norm h t⟩
  unfold create_embeddings
  rw [List.get?_map, ht]
  rfl

set_option maxRecDepth 8000 in
theorem create_embeddings_contract_witness :
    ([("hi".toList)] : List (List Char)).get? 0 = some ("hi".toList) ∧
    normSqNat (raw_embedding hash0 ("hi".toList)) ≠ 0 ∧
    ((create_embedding_one hash0 ("hi".toList)).map (fun x => x ^ 2)).sum = 1 :=
  ⟨rfl, by decide,
    ((create_embeddings_contract hash0 [("hi".toList)]).2 0 ("hi".toList) rfl).2.2.2
      (by decide)⟩

/-- C9: the embedder is deterministic — the vector produced for a text
does not depend on which call (or surrounding batch) it occurs in — and
the zero-length string maps to the zero vector. -/
theorem create_embeddings_deterministic (h : List Char → Nat)
    (ts1 ts2 : List (List Char)) (t : List Char) :
    (create_embeddings h (ts1 ++ [t])).getLast? =
      (create_embeddings h (ts2 ++ [t])).getLast? ∧
    create_embedding_one h [] = List.replicate 384 (0 : ℝ) := by
  constructor
  · unfold create_embeddings
    rw [List.map_append, List.map_append]
    simp
  · exact create_embedding_one_zero h [] rfl

/-- C10: each prepared vector stores, under the metadata "text" key,
exactly the first 1000 characters of the entry's text, while its vector
value is computed from the full untruncated text. -/
theorem add_documents_truncated_metadata (h : List Char → Nat) (uuidGen : Nat → List Char)
    (documents : List RagDoc) :
    (add_documents h uuidGen documents).1.length = documents.length ∧
    (∀ i d, documents.get? i = some d →
      ((add_documents h uuidGen documents).1).get? i =
        some { id := uuidGen i
               values := create_embedding_one h d.text
               metadata := d.metadata
               metadata_text := d.text.take 1000 }) := by
  constructor
  · simp [add_documents]
  · intro i d hd
    have hi : i < documents.length := by
      rcases List.get?_eq_some.1 hd with ⟨hlt, _⟩
      exact hlt
    simp only [add_documents]
    rw [List.get?_map, List.get?_range hi]
    simp only [Option.map_some']
    congr 1
    have htext : (documents.map (fun d => d.text)).getD i [] = d.text := by
      rw [List.getD_eq_getElem?_getD, List.getElem?_map]
      rw [← List.get?_eq_getElem?, hd]
      rfl
    have hmeta : (documents.map (fun d => d.metadata)).getD i default = d.metadata := by
      rw [List.getD_eq_getElem?_getD, List.getElem?_map]
      rw [← List.get?_eq_getElem?, hd]
      rfl
    have hid : ((List.range documents.length).map uuidGen).getD i [] = uuidGen i := by
      rw [List.getD_eq_getElem?_getD, List.getElem?_map, List.getElem?_range hi]
      rfl
    have hemb : (create_embeddings h (documents.map (fun d => d.text))).getD i [] =
        create_embedding_one h d.text := by
      unfold create_embeddings
      rw [List.getD_eq_getElem?_getD, List.getElem?_map, List.getElem?_map]
      rw [← List.get?_eq_getElem?, hd]
      rfl
    rw [htext, hmeta, hid, hemb]

theorem add_documents_truncated_metadata_witness :
    ([bigDoc].get? 0 = some bigDoc) ∧
    ((add_documents hash0 (fun _ => []) [bigDoc]).1).get? 0 =
      some { id := []
             values := create_embedding_one hash0 (List.replicate 1500 'a')
             metadata := (default : ChunkMeta)
             metadata_text := (List.replicate 1500 'a').take 1000 } :=
  ⟨rfl,
    (add_documents_truncated_metadata hash0 (fun _ => []) [bigDoc]).2 0 bigDoc rfl⟩

/-- C2: `answer_multiple_questions` returns one answer per question in
input order with the batch-level success flag true (no non-per-question
failure can escape `answer_question`); a failed question occupies its
position with a string starting "Error: " while a question whose
retrieval and generation succeed occupies its position with the genuine
answer — one question's failure never aborts the others. -/
theorem answer_multiple_questions_contract (hasStore : Bool)
    (search : List Char → Nat → Except PyErr (List SearchResult))
    (genSimple : List Char → List SearchResult → Except PyErr (List Char))
    (top_k : Nat) (questions : List (List Char)) :
    (answer_multiple_questions hasStore search genSimple top_k questions).success = true ∧
    (answer_multiple_questions hasStore search genSimple top_k questions).answers.length =
      questions.length ∧
    (∀ i q, questions.get? i = some q →
      ((answer_question hasStore search genSimple top_k q).success = true →
        (answer_multiple_questions hasStore search genSimple top_k questions).answers.get? i =
          some ((answer_question hasStore search genSimple top_k q).answer.getD [])) ∧
      ((answer_question hasStore search genSimple top_k q).success = false →
        ∃ e, (answer_multiple_questions hasStore search genSimple top_k questions).answers.get? i =
          some (("Error: ").toList ++ e)) ∧
      (∀ results a, hasStore = true → search q top_k = .ok results → results ≠ [] →
        genSimple q results = .ok a →
        (answer_multiple_questions hasStore search genSimple top_k questions).answers.get? i =
          some a)) := by
  refine ⟨rfl, by simp [answer_multiple_questions], ?_⟩
  intro i q hq
  have hget : (answer_multiple_questions hasStore search genSimple top_k questions).answers.get? i
      = some (if (answer_question hasStore search genSimple top_k q).success
              then (answer_question hasStore search genSimple top_k q).answer.getD []
              else ("Error: ").toList ++
                (answer_question hasStore search genSimple top_k q).error.getD
                  (("Unknown error").toList)) := by
    simp only [answer_multiple_questions]
    rw [List.get?_map, hq]
    rfl
  refine ⟨?_, ?_, ?_⟩
  · intro hs
    rw [hget, if_pos hs]
  · intro hs
    refine ⟨(answer_question hasStore search genSimple top_k q).error.getD
      (("Unknown error").toList), ?_⟩
    rw [hget, if_neg (by rw [hs]; exact Bool.false_ne_true)]
  · intro results a hstore hsearch hne hgen
    have hr : answer_question hasStore search genSimple top_k q =
        { success := true
          answer := some a
          context_used := some results.length
          search_results := some results } := by
      unfold answer_question
      rw [hstore]
      simp only [Bool.not_true, Bool.false_eq_true, if_false]
      rw [hsearch]
      have hie : results.isEmpty = false := by
        cases results with
        | nil => exact absurd rfl hne
        | cons x xs => rfl
      simp only [hie, Bool.false_eq_true, if_false]
      rw [hgen]
    rw [hget, hr]
    rfl

theorem answer_multiple_questions_contract_witness :
    ([("q1").toList, ("q2").toList].get? 1 = some (("q2").toList)) ∧
    (answer_question true searchW genW 5 (("q2").toList)).success = false ∧
    (∃ e, (answer_multiple_questions true searchW genW 5
        [("q1").toList, ("q2").toList]).answers.get? 1 = some (("Error: ").toList ++ e)) ∧
    (answer_multiple_questions true searchW genW 5
        [("q1").toList, ("q2").toList]).answers.get? 0 = some (("A1").toList) ∧
    (answer_multiple_questions true searchW genW 5
        [("q1").toList, ("q2").toList]).success = true :=
  ⟨rfl, rfl,
    ((answer_multiple_questions_contract true searchW genW 5
        [("q1").toList, ("q2").toList]).2.2 1 (("q2").toList) rfl).2.1 rfl,
    ((answer_multiple_questions_contract true searchW genW 5
        [("q1").toList, ("q2").toList]).2.2 0 (("q1").toList) rfl).2.2
      [{ id := ("1").toList, score := 0, text := ("ctx").toList }] (("A1").toList)
      rfl rfl (by decide) rfl,
    (answer_multiple_questions_contract true searchW genW 5
        [("q1").toList, ("q2").toList]).1⟩

/-- C3: `process_and_index_document` is total over every outcome of its
collaborators — it never lets an exception escape; the result is either
`success := true` carrying the number of processed chunks and the
returned ids, or `success := false` carrying an error message. -/
theorem process_and_index_document_total (processDoc : Except PyErr DocInfo) (hasStore : Bool)
    (addDocs : List RagDoc → Except PyErr (List (List Char))) (cs ov : Nat) (url : List Char) :
    ((process_and_index_document processDoc hasStore addDocs cs ov url).success = true ∧
      (process_and_index_document processDoc hasStore addDocs cs ov url).error = none ∧
      (∃ info, processDoc = .ok info ∧
        (process_and_index_document processDoc hasStore addDocs cs ov url).chunks_processed =
          some (chunk_text info.text cs ov).length ∧
        (∃ ids, addDocs (prepare_documents url info cs ov) = .ok ids ∧
          (process_and_index_document processDoc hasStore addDocs cs ov url).document_ids =
            some ids))) ∨
    ((process_and_index_document processDoc hasStore addDocs cs ov url).success = false ∧
      (∃ msg, (process_and_index_document processDoc hasStore addDocs cs ov url).error =
        some msg) ∧
      (process_and_index_document processDoc hasStore addDocs cs ov url).chunks_processed =
        none ∧
      (process_and_index_document processDoc hasStore addDocs cs ov url).document_ids =
        none) := by
  cases processDoc with
  | error e =>
    right
    exact ⟨rfl, ⟨pyStr e, rfl⟩, rfl, rfl⟩
  | ok info =>
    cases hasStore with
    | false =>
      right
      exact ⟨rfl, ⟨("Vector store not available").toList, rfl⟩, rfl, rfl⟩
    | true =>
      cases hadd : addDocs (prepare_documents url info cs ov) with
      | error e =>
        right
        refine ⟨?_, ⟨pyStr e, ?_⟩, ?_, ?_⟩ <;>
          simp [process_and_index_document, hadd]
      | ok ids =>
        left
        have hlen : (prepare_documents url info cs ov).length =
            (chunk_text info.text cs ov).length := by
          unfold prepare_documents
          rw [List.length_map, List.enum_length]
        refine ⟨?_, ?_, info, rfl, ?_, ids, hadd, ?_⟩ <;>
          simp [process_and_index_document, hadd, hlen]

/-- C4: both response generators select the OpenAI branch exactly when
the OpenAI credential is configured (present and truthy) and differs
from its placeholder sentinel, otherwise the Perplexity branch under the
same placeholder check — whatever the selected backend then returns
(success or failure) is final, with no cascade to the other — and when
neither is configured they raise `ValueError("No LLM API keys
provided")`. -/
theorem llm_provider_selection (o p : Option (List Char))
    (callOpenAI : List (List Char × List Char) → Except PyErr (List Char))
    (perplexityPost : List (List Char × List Char) → Nat × List Char)
    (query : List Char) (context : List SearchResult) :
    (openai_branch (LLMClient.init o p) = true ↔
      (truthy o && (o.getD [] != openai_placeholder)) = true) ∧
    (perplexity_branch (LLMClient.init o p) = true ↔
      (truthy p && (p.getD [] != perplexity_placeholder)) = true) ∧
    (openai_branch (LLMClient.init o p) = true →
      generate_simple_response (LLMClient.init o p) callOpenAI perplexityPost query context =
        (match callOpenAI [(("user").toList, simple_prompt query context)] with
         | .ok content => .ok (py_strip content)
         | .error e => .error e) ∧
      generate_response_with_context (LLMClient.init o p) callOpenAI perplexityPost query
          context =
        (match callOpenAI [(("system").toList, qa_system_prompt),
                           (("user").toList, qa_user_prompt query context)] with
         | .ok content => .ok (py_strip content)
         | .error e => .error e)) ∧
    (openai_branch (LLMClient.init o p) = false →
      perplexity_branch (LLMClient.init o p) = true →
      generate_simple_response (LLMClient.init o p) callOpenAI perplexityPost query context =
        perplexity_result (perplexityPost [(("user").toList, simple_prompt query context)]) ∧
      generate_response_with_context (LLMClient.init o p) callOpenAI perplexityPost query
          context =
        perplexity_result (perplexityPost [(("system").toList, qa_system_prompt),
                                           (("user").toList, qa_user_prompt query context)])) ∧
    (openai_branch (LLMClient.init o p) = false →
      perplexity_branch (LLMClient.init o p) = false →
      generate_simple_response (LLMClient.init o p) callOpenAI perplexityPost query context =
        .error (.valueError (("No LLM API keys provided").toList)) ∧
      generate_response_with_context (LLMClient.init o p) callOpenAI perplexityPost query
          context =
        .error (.valueError (("No LLM API keys provided").toList))) := by
  refine ⟨?_, ?_, ?_, ?_, ?_⟩
  · cases o with
    | none => simp [openai_branch, LLMClient.init, truthy]
    | some k =>
      simp only [openai_branch, LLMClient.init, truthy, Option.getD]
      cases hk : k.isEmpty <;> cases hp : k == openai_placeholder <;>
        simp [hk, hp, bne]
  · cases p with
    | none => simp [perplexity_branch, LLMClient.init, truthy]
    | some k => simp [perplexity_branch, LLMClient.init, truthy]
  · intro hsel
    constructor
    · unfold generate_simple_response
      rw [if_pos hsel]
    · unfold generate_response_with_context
      rw [if_pos hsel]
  · intro hno hsel
    constructor
    · unfold generate_simple_response
      rw [if_neg (by rw [hno]; exact Bool.false_ne_true), if_pos hsel]
    · unfold generate_response_with_context
      rw [if_neg (by rw [hno]; exact Bool.false_ne_true), if_pos hsel]
  · intro hno hnp
    constructor
    · unfold generate_simple_response
      rw [if_neg (by rw [hno]; exact Bool.false_ne_true),
        if_neg (by rw [hnp]; exact Bool.false_ne_true)]
    · unfold generate_response_with_context
      rw [if_neg (by rw [hno]; exact Bool.false_ne_true),
        if_neg (by rw [hnp]; exact Bool.false_ne_true)]

theorem llm_provider_selection_witness :
    openai_branch (LLMClient.init (some (("sk-test").toList)) none) = true ∧
    perplexity_branch (LLMClient.init (some (("sk-test").toList)) none) = false ∧
    generate_simple_response (LLMClient.init (some (("sk-test").toList)) none)
        (fun _ => .error (.exn (("rate limited").toList))) (fun _ => (200, []))
        (("q").toList) [] =
      .error (.exn (("rate limited").toList)) ∧
    generate_simple_response (LLMClient.init none none)
        (fun _ => .ok (("hi").toList)) (fun _ => (200, [])) (("q").toList) [] =
      .error (.valueError (("No LLM API keys provided").toList)) :=
  ⟨by decide, by decide,
    ((llm_provider_selection (some (("sk-test").toList)) none
        (fun _ => .error (.exn (("rate limited").toList))) (fun _ => (200, []))
        (("q").toList) []).2.2.1 (by decide)).1,
    ((llm_provider_selection none none
        (fun _ => .ok (("hi").toList)) (fun _ => (200, []))
        (("q").toList) []).2.2.2.2 (by decide) (by decide)).1⟩

theorem findIdxFrom_spec (p : Char → Bool) :
    ∀ (s : List Char) i, findIdxFrom p s = some i →
      (∃ ch, s.get? i = some ch ∧ p ch = true) ∧
      (∀ k, k < i → ∀ ch2, s.get? k = some ch2 → p ch2 = false) := by
  intro s
  induction s with
  | nil => intro i hi; exact absurd hi (by simp [findIdxFrom])
  | cons c rest ih =>
    intro i hi
    by_cases hc : p c = true
    · have : findIdxFrom p (c :: rest) = some 0 := by simp [findIdxFrom, hc]
      rw [this] at hi
      cases hi
      exact ⟨⟨c, rfl, hc⟩, fun k hk _ _ => absurd hk (Nat.not_lt_zero k)⟩
    · have hc' : p c = false := by
        cases h : p c with
        | true => exact absurd h hc
        | false => rfl
      have : findIdxFrom p (c :: rest) = (findIdxFrom p rest).map (fun i => i + 1) := by
        simp [findIdxFrom, hc']
      rw [this] at hi
      cases hrest : findIdxFrom p rest with
      | none => rw [hrest] at hi; cases hi
      | some i' =>
        rw [hrest] at hi
        have hii : i = i' + 1 := by
          have h2 : some (i' + 1) = some i := hi
          exact (Option.some.inj h2).symm
        subst hii
        obtain ⟨⟨ch, hch, hpch⟩, hbefore⟩ := ih i' hrest
        refine ⟨⟨ch, by simpa using hch, hpch⟩, ?_⟩
        intro k hk ch2 hch2
        cases k with
        | zero =>
          have : ch2 = c := by
            simpa using hch2.symm
          rw [this]
          exact hc'
        | succ k' =>
          exact hbefore k' (by omega) ch2 (by simpa using hch2)

theorem findLastIdx_spec (p : Char → Bool) (s : List Char) (j : Nat)
    (hj : findLastIdx p s = some j) :
    (∃ ch, s.get? j = some ch ∧ p ch = true) ∧
    (∀ k, j < k → k < s.length → ∀ ch2, s.get? k = some ch2 → p ch2 = false) := by
  unfold findLastIdx at hj
  cases hrev : findIdxFrom p s.reverse with
  | none => rw [hrev] at hj; cases hj
  | some k0 =>
    rw [hrev] at hj
    have hjval : j = s.length - 1 - k0 := (Option.some.inj hj).symm
    obtain ⟨⟨ch, hch, hpch⟩, hbefore⟩ := findIdxFrom_spec p s.reverse k0 hrev
    have hk0lt : k0 < s.length := by
      have := List.get?_eq_some.1 hch
      rcases this with ⟨hlt, _⟩
      simpa using hlt
    have hrevget : s.reverse.get? k0 = s.get? (s.length - 1 - k0) := by
      rw [List.get?_eq_getElem?, List.get?_eq_getElem?,
        List.getElem?_reverse (by simpa using hk0lt)]
    constructor
    · exact ⟨ch, by rw [hjval, ← hrevget]; exact hch, hpch⟩
    · intro k hk hklen ch2 hch2
      have hk0' : s.length - 1 - k < k0 := by omega
      have : s.reverse.get? (s.length - 1 - k) = s.get? k := by
        rw [List.get?_eq_getElem?, List.get?_eq_getElem?,
          List.getElem?_reverse (by omega)]
        congr 1
        omega
      exact hbefore (s.length - 1 - k) hk0' ch2 (by rw [this]; exact hch2)

/-- C5 (amended): the structured-response post-processing extracts the
span from the first opening brace to the last closing brace of the raw
text (the greedy DOTALL regex match); if that single candidate parses as
JSON the parsed object is returned, and otherwise — including when the
raw text holds no such span — the fallback record is returned, carrying
the sentinel decision and amount and the raw text as justification. -/
theorem structured_postprocess_contract :
    (∀ rt c j, re_search_braces rt = some c → json_loads c = some j →
      structured_postprocess rt = j) ∧
    (∀ rt, (∀ c, re_search_braces rt = some c → json_loads c = none) →
      structured_postprocess rt = structured_fallback rt) ∧
    (∀ rt i j, findIdxFrom (fun ch => ch == '\x7b') rt = some i →
      findLastIdx (fun ch => ch == '\x7d') rt = some j → i < j →
      re_search_braces rt = some ((rt.drop i).take (j - i + 1)) ∧
      (∃ ch, rt.get? i = some ch ∧ ch = '\x7b') ∧
      (∃ ch, rt.get? j = some ch ∧ ch = '\x7d') ∧
      (∀ k, k < i → rt.get? k ≠ some '\x7b') ∧
      (∀ k, j < k → k < rt.length → rt.get? k ≠ some '\x7d')) := by
  refine ⟨?_, ?_, ?_⟩
  · intro rt c j hsearch hparse
    unfold structured_postprocess
    rw [hsearch]
    simp [hparse]
  · intro rt hall
    unfold structured_postprocess
    cases hsearch : re_search_braces rt with
    | none => rfl
    | some c => simp [hall c hsearch]
  · intro rt i j hfirst hlast hij
    obtain ⟨⟨chi, hchi, hpchi⟩, hbefore⟩ :=
      findIdxFrom_spec (fun ch => ch == '\x7b') rt i hfirst
    obtain ⟨⟨chj, hchj, hpchj⟩, hafter⟩ :=
      findLastIdx_spec (fun ch => ch == '\x7d') rt j hlast
    refine ⟨?_, ⟨chi, hchi, by simpa using hpchi⟩, ⟨chj, hchj, by simpa using hpchj⟩, ?_, ?_⟩
    · unfold re_search_braces
      rw [hfirst, hlast]
      simp [hij]
    · intro k hk hbad
      have := hbefore k hk '\x7b' hbad
      simp at this
    · intro k hk hklen hbad
      have := hafter k hk hklen '\x7d' hbad
      simp at this

theorem structured_postprocess_contract_witness :
    re_search_braces (("ok \x7b\"a\": 1\x7d").toList) = some (("\x7b\"a\": 1\x7d").toList) ∧
    json_loads (("\x7b\"a\": 1\x7d").toList) =
      some (Json.jobj [(("a").toList, Json.jnum 1)]) ∧
    structured_postprocess (("ok \x7b\"a\": 1\x7d").toList) =
      Json.jobj [(("a").toList, Json.jnum 1)] ∧
    structured_postprocess (("no json here").toList) =
      structured_fallback (("no json here").toList) :=
  ⟨rfl, rfl,
    structured_postprocess_contract.1 (("ok \x7b\"a\": 1\x7d").toList)
      (("\x7b\"a\": 1\x7d").toList) (Json.jobj [(("a").toList, Json.jnum 1)]) rfl rfl,
    structured_postprocess_contract.2.1 (("no json here").toList)
      (fun c hc => Option.noConfusion hc)⟩

/-- C5 (counterexample): on a backend text holding two JSON objects with
junk between them, the first brace-delimited JSON object parses, yet the
code does not return it: the greedy regex grabs from the first opening
to the last closing brace, that span fails to parse, and the fallback
record is returned instead. -/
theorem structured_postprocess_counterexample :
    first_json_object (("\x7b\"a\": 1\x7d x \x7b\"b\": 2\x7d").toList) =
      some (("\x7b\"a\": 1\x7d").toList) ∧
    json_loads (("\x7b\"a\": 1\x7d").toList) =
      some (Json.jobj [(("a").toList, Json.jnum 1)]) ∧
    structured_postprocess (("\x7b\"a\": 1\x7d x \x7b\"b\": 2\x7d").toList) =
      structured_fallback (("\x7b\"a\": 1\x7d x \x7b\"b\": 2\x7d").toList) ∧
    ¬ (structured_postprocess (("\x7b\"a\": 1\x7d x \x7b\"b\": 2\x7d").toList) =
      Json.jobj [(("a").toList, Json.jnum 1)]) := by
  refine ⟨rfl, rfl, rfl, ?_⟩
  intro h
  have hlen : (3 : Nat) = 1 :=
    congrArg (fun j => match j with | Json.jobj kvs => kvs.length | _ => 0) h
  exact absurd hlen (by decide)

/-- C6 (amended): `process_document` derives the extension from the
locator's path component with the query string stripped, by
case-insensitive suffix; an extension outside the configured supported
set raises the unsupported-format `ValueError`; `.pdf`, `.docx` and
`.txt` dispatch to their format extractors — but `.doc`, although a
member of the supported set, has no extractor and falls through to the
same unsupported-format `ValueError`. -/
theorem process_document_dispatch (content : List Nat)
    (extract_pdf extract_docx extract_txt : List Nat → Except PyErr (List Char))
    (url : List Char) :
    (get_extension url ∉ default_supported_types →
      process_document (.ok content) extract_pdf extract_docx extract_txt
          default_supported_types url =
        .error (.valueError (("Unsupported file type: ").toList ++ get_extension url))) ∧
    (get_extension url = (".pdf").toList →
      process_document (.ok content) extract_pdf extract_docx extract_txt
          default_supported_types url =
        (match extract_pdf content with
         | .ok t => .ok ⟨t, get_extension url, url, content.length⟩
         | .error e => .error e)) ∧
    (get_extension url = (".docx").toList →
      process_document (.ok content) extract_pdf extract_docx extract_txt
          default_supported_types url =
        (match extract_docx content with
         | .ok t => .ok ⟨t, get_extension url, url, content.length⟩
         | .error e => .error e)) ∧
    (get_extension url = (".txt").toList →
      process_document (.ok content) extract_pdf extract_docx extract_txt
          default_supported_types url =
        (match extract_txt content with
         | .ok t => .ok ⟨t, get_extension url, url, content.length⟩
         | .error e => .error e)) ∧
    (get_extension url = (".doc").toList →
      process_document (.ok content) extract_pdf extract_docx extract_txt
          default_supported_types url =
        .error (.valueError (("Unsupported file type: ").toList ++ get_extension url))) := by
  refine ⟨?_, ?_, ?_, ?_, ?_⟩
  · intro h
    simp only [process_document]
    rw [if_pos h]
  · intro h
    simp only [process_document]
    rw [h, if_neg (by decide), if_pos rfl]
  · intro h
    simp only [process_document]
    rw [h, if_neg (by decide), if_neg (by decide), if_pos rfl]
  · intro h
    simp only [process_document]
    rw [h, if_neg (by decide), if_neg (by decide), if_neg (by decide), if_pos rfl]
  · intro h
    simp only [process_document]
    rw [h, if_neg (by decide), if_neg (by decide), if_neg (by decide), if_neg (by decide)]

theorem process_document_dispatch_witness :
    get_extension (("https://example.com/files/Policy.PDF?sig=1").toList) =
      (".pdf").toList ∧
    process_document (.ok [7]) (fun _ => .ok (("TEXT").toList))
        (fun _ => .error (.exn [])) (fun _ => .error (.exn []))
        default_supported_types
        (("https://example.com/files/Policy.PDF?sig=1").toList) =
      .ok ⟨("TEXT").toList, (".pdf").toList,
        ("https://example.com/files/Policy.PDF?sig=1").toList, 1⟩ ∧
    get_extension (("http://x/notes").toList) ∉ default_supported_types ∧
    process_document (.ok [7]) (fun _ => .ok (("TEXT").toList))
        (fun _ => .error (.exn [])) (fun _ => .error (.exn []))
        default_supported_types (("http://x/notes").toList) =
      .error (.valueError (("Unsupported file type: ").toList ++
        get_extension (("http://x/notes").toList))) :=
  ⟨rfl,
    (process_document_dispatch [7] (fun _ => .ok (("TEXT").toList))
      (fun _ => .error (.exn [])) (fun _ => .error (.exn []))
      (("https://example.com/files/Policy.PDF?sig=1").toList)).2.1 rfl,
    by decide,
    (process_document_dispatch [7] (fun _ => .ok (("TEXT").toList))
      (fun _ => .error (.exn [])) (fun _ => .error (.exn []))
      (("http://x/notes").toList)).1 (by decide)⟩

/-- C6 (counterexample): `.doc` belongs to the configured supported set,
yet `process_document` raises the unsupported-format error for a `.doc`
locator instead of dispatching to an extractor, refuting "raises exactly
when the extension is not in the supported set". -/
theorem process_document_doc_counterexample :
    get_extension (("http://example.com/file.doc").toList) = (".doc").toList ∧
    ((".doc").toList ∈ default_supported_types) ∧
    process_document (Except.ok []) (fun _ => Except.ok []) (fun _ => Except.ok [])
        (fun _ => Except.ok []) default_supported_types
        (("http://example.com/file.doc").toList) =
      Except.error (PyErr.valueError (("Unsupported file type: .doc").toList)) :=
  ⟨rfl, by decide, rfl⟩
